import Mathlib

/-!
# Word Seek bot — verification of the core logic

Shallow embedding of the Word Seek Telegram bot (`src/main.py`):
the guess-scoring engine (`format_guess_result`), the in-memory game
session store with its message/command handlers (`game_command`,
`stop_command`, `process_message`), the leaderboard aggregation query
(`db_get_leaderboard`) and the broadcast fan-out loop
(`broadcast_command`), together with theorems about them.

Strings are modelled as `List Char`; the Python `dict` of sessions is an
association list keyed by chat id; the PostgreSQL `scores` table is a
list of rows, and the leaderboard SQL query is given its standard
relational semantics (filter, group-by, sum, order-by descending,
limit 10).
-/

namespace WordSeek

/-- The three per-position markers produced by the scoring engine
(🟩 green = exact, 🟨 yellow = present elsewhere, 🟥 red = absent). -/
inductive Marker where
  | exact
  | present
  | absent
deriving DecidableEq, Repr

/-- First pass of `format_guess_result` (src/main.py lines 210-214):
positions where guess and target agree are consumed, i.e. both entries
are set to `None`.  Returns the pair `(target_list, guess_list)`. -/
def pass1 : List Char → List Char → List (Option Char) × List (Option Char)
  | t :: ts, g :: gs =>
    let rest := pass1 ts gs
    if g = t then (none :: rest.1, none :: rest.2)
    else (some t :: rest.1, some g :: rest.2)
  | _, _ => ([], [])

/-- `target_list[target_list.index(c)] = None` (src/main.py line 221):
blank out the leftmost remaining occurrence of `c` in the pool. -/
def eraseFirstOcc (c : Char) : List (Option Char) → List (Option Char)
  | [] => []
  | none :: rest => none :: eraseFirstOcc c rest
  | some d :: rest =>
    if d = c then none :: rest else some d :: eraseFirstOcc c rest

/-- Second pass of `format_guess_result` (src/main.py lines 217-223):
positions consumed by the first pass (head `none`) keep their `exact`
marker; otherwise the guess character is looked up among the remaining
target pool, marking `present` and consuming the leftmost occurrence,
or `absent`. -/
def pass2 : List (Option Char) → List (Option Char) → List Marker
  | [], _ => []
  | none :: gl, pool => Marker.exact :: pass2 gl pool
  | some g :: gl, pool =>
    if some g ∈ pool then Marker.present :: pass2 gl (eraseFirstOcc g pool)
    else Marker.absent :: pass2 gl pool

/-- `format_guess_result` (src/main.py lines 201-225): two-pass
Wordle-style scoring of `guess` against `target`. -/
def format_guess_result (target guess : List Char) : List Marker :=
  pass2 (pass1 target guess).2 (pass1 target guess).1

/-- Number of occurrences of the character `c` in a string. -/
def countChar (c : Char) : List Char → Nat
  | [] => 0
  | d :: rest => (if d = c then 1 else 0) + countChar c rest

/-- Number of occurrences of `some c` in a consumed pool. -/
def countSome (c : Char) : List (Option Char) → Nat
  | [] => 0
  | none :: rest => countSome c rest
  | some d :: rest => (if d = c then 1 else 0) + countSome c rest

/-- Number of exact matches at positions where the target has `c`
(equivalently, where both target and guess have `c`). -/
def exactConsumed (c : Char) : List Char → List Char → Nat
  | t :: ts, g :: gs =>
    (if g = t ∧ t = c then 1 else 0) + exactConsumed c ts gs
  | _, _ => 0

/-- Number of positions whose guess character is `c` and whose marker is
`present`, walking guess and marker sequence in lockstep. -/
def countGuessPresent (c : Char) : List Char → List Marker → Nat
  | g :: gs, Marker.present :: ms =>
    (if g = c then 1 else 0) + countGuessPresent c gs ms
  | _ :: gs, _ :: ms => countGuessPresent c gs ms
  | _, _ => 0

theorem pass1_fst_length :
    ∀ t g : List Char, t.length = g.length → (pass1 t g).1.length = t.length
  | [], [], _ => rfl
  | t :: ts, g :: gs, h => by
    simp only [List.length_cons, Nat.succ.injEq] at h
    simp only [pass1]
    split <;> simp [pass1_fst_length ts gs h]

theorem pass1_snd_length :
    ∀ t g : List Char, t.length = g.length → (pass1 t g).2.length = g.length
  | [], [], _ => rfl
  | t :: ts, g :: gs, h => by
    simp only [List.length_cons, Nat.succ.injEq] at h
    simp only [pass1]
    split <;> simp [pass1_snd_length ts gs h]

theorem pass2_length : ∀ gl pool : List (Option Char),
    (pass2 gl pool).length = gl.length
  | [], _ => rfl
  | none :: gl, pool => by simp [pass2, pass2_length gl pool]
  | some g :: gl, pool => by
    simp only [pass2]
    split <;> simp [pass2_length gl _]

theorem format_guess_result_length (target guess : List Char)
    (h : target.length = guess.length) :
    (format_guess_result target guess).length = guess.length := by
  rw [format_guess_result, pass2_length, pass1_snd_length target guess h]

theorem pass2_getD_exact :
    ∀ (gl pool : List (Option Char)) (i : Nat), i < gl.length →
      ((pass2 gl pool).getD i Marker.absent = Marker.exact ↔
        gl.getD i none = none)
  | [], _, i, hi => absurd hi (by simp)
  | none :: gl, pool, 0, _ => by simp [pass2]
  | none :: gl, pool, i + 1, hi => by
    simp only [pass2, List.getD_cons_succ]
    exact pass2_getD_exact gl pool i (by simpa using hi)
  | some g :: gl, pool, 0, _ => by
    simp only [pass2]
    split <;> simp
  | some g :: gl, pool, i + 1, hi => by
    have hi' : i < gl.length := by simpa using hi
    simp only [pass2]
    split <;>
      simpa only [List.getD_cons_succ] using pass2_getD_exact gl _ i hi'

theorem pass1_snd_getD_none :
    ∀ (t g : List Char) (i : Nat), i < t.length → i < g.length →
      ((pass1 t g).2.getD i none = none ↔
        g.getD i 'A' = t.getD i 'A')
  | [], _, i, hi, _ => absurd hi (by simp)
  | _ :: _, [], i, _, hi => absurd hi (by simp)
  | t :: ts, g :: gs, 0, _, _ => by
    simp only [pass1]
    split <;> rename_i h <;> simp [h]
  | t :: ts, g :: gs, i + 1, hi₁, hi₂ => by
    have h₁ : i < ts.length := by simpa using hi₁
    have h₂ : i < gs.length := by simpa using hi₂
    simp only [pass1]
    split <;>
      simpa only [List.getD_cons_succ] using pass1_snd_getD_none ts gs i h₁ h₂

/-- A position is marked `exact` iff guess and target agree there
(positions read with `getD`, which at an in-range index is the real
element). -/
theorem format_guess_result_exact_iff (target guess : List Char)
    (h : target.length = guess.length) (i : Nat) (hi : i < guess.length) :
    (format_guess_result target guess).getD i Marker.absent = Marker.exact ↔
      guess.getD i 'A' = target.getD i 'A' := by
  rw [format_guess_result,
    pass2_getD_exact _ _ i (by rw [pass1_snd_length target guess h]; exact hi)]
  exact pass1_snd_getD_none target guess i (h ▸ hi) hi

theorem countSome_eraseFirstOcc_self (c : Char) :
    ∀ pool : List (Option Char), some c ∈ pool →
      countSome c (eraseFirstOcc c pool) + 1 = countSome c pool
  | [], h => absurd h (by simp)
  | none :: rest, h => by
    have h' : some c ∈ rest := by simpa using h
    simpa [eraseFirstOcc, countSome] using
      countSome_eraseFirstOcc_self c rest h'
  | some d :: rest, h => by
    by_cases hd : d = c
    · subst hd
      simp [eraseFirstOcc, countSome, Nat.add_comm]
    · have h' : some c ∈ rest := by
        rcases List.mem_cons.1 h with h | h
        · exact absurd (Option.some.inj h.symm) hd
        · exact h
      simpa [eraseFirstOcc, countSome, hd, Nat.add_assoc] using
        countSome_eraseFirstOcc_self c rest h'

theorem countSome_eraseFirstOcc_ne (c g : Char) (hgc : g ≠ c) :
    ∀ pool : List (Option Char),
      countSome c (eraseFirstOcc g pool) = countSome c pool
  | [] => rfl
  | none :: rest => by
    simp [eraseFirstOcc, countSome, countSome_eraseFirstOcc_ne c g hgc rest]
  | some d :: rest => by
    by_cases hd : d = g
    · subst hd
      simp [eraseFirstOcc, countSome, hgc]
    · simp [eraseFirstOcc, countSome, hd,
        countSome_eraseFirstOcc_ne c g hgc rest]

theorem pass1_countSome (c : Char) :
    ∀ t g : List Char, t.length = g.length →
      countSome c (pass1 t g).1 + exactConsumed c t g = countChar c t
  | [], [], _ => rfl
  | t :: ts, g :: gs, h => by
    have h' : ts.length = gs.length := by simpa using h
    have ih := pass1_countSome c ts gs h'
    simp only [pass1]
    by_cases hgt : g = t
    · rw [if_pos hgt]
      simp only [countSome, countChar, exactConsumed, hgt, and_self, if_true,
        eq_self_iff_true, true_and]
      omega
    · rw [if_neg hgt]
      simp only [countSome, countChar, exactConsumed, hgt, false_and, if_false]
      omega

/-- The second pass never marks more `present` positions for a letter
than the pool holds occurrences of it.  The guess characters are read
from the original guess `gs`, related to the consumed guess list `gl` by
`Forall₂` (each entry is either consumed or the original character). -/
theorem pass2_present_bound (c : Char) :
    ∀ {gs : List Char} {gl : List (Option Char)},
      List.Forall₂ (fun g o => o = none ∨ o = some g) gs gl →
      ∀ pool : List (Option Char),
        countGuessPresent c gs (pass2 gl pool) ≤ countSome c pool := by
  intro gs gl h
  induction h with
  | nil => intro pool; simp [countGuessPresent]
  | cons hrel htail ih =>
    rename_i g o gs' gl'
    intro pool
    rcases hrel with ho | ho
    · subst ho
      simpa [pass2, countGuessPresent] using ih pool
    · subst ho
      by_cases hmem : some g ∈ pool
      · by_cases hgc : g = c
        · subst hgc
          have hcount := countSome_eraseFirstOcc_self g pool hmem
          have := ih (eraseFirstOcc g pool)
          simp only [pass2, hmem, if_pos, countGuessPresent, if_pos rfl]
          omega
        · have hcount := countSome_eraseFirstOcc_ne c g hgc pool
          have := ih (eraseFirstOcc g pool)
          simp only [pass2, if_pos hmem, countGuessPresent, if_neg hgc]
          omega
      · simpa [pass2, hmem, countGuessPresent] using ih pool

theorem pass1_snd_forall₂ :
    ∀ t g : List Char, t.length = g.length →
      List.Forall₂ (fun gc o => o = none ∨ o = some gc) g (pass1 t g).2
  | [], [], _ => by simp [pass1]
  | t :: ts, g :: gs, h => by
    have h' : ts.length = gs.length := by simpa using h
    have ih := pass1_snd_forall₂ ts gs h'
    by_cases hgt : g = t <;>
      simpa [pass1, hgt] using ih

/-- The number of `present` markers whose guess letter is `c` is at most
the occurrences of `c` in the target minus the exact matches at
positions where the target has `c`. -/
theorem format_guess_result_present_bound (target guess : List Char)
    (h : target.length = guess.length) (c : Char) :
    countGuessPresent c guess (format_guess_result target guess) ≤
      countChar c target - exactConsumed c target guess := by
  have h₁ := pass2_present_bound c (pass1_snd_forall₂ target guess h)
    (pass1 target guess).1
  have h₂ := pass1_countSome c target guess h
  rw [format_guess_result]
  omega

/-- C1: for 5-character target and guess, the match pattern marks
position `i` exact iff the guess and target agree at `i`, and for every
letter `c` the number of present-elsewhere markers whose guess letter is
`c` never exceeds the occurrences of `c` in the target minus the exact
matches at positions where the target has `c`. -/
theorem scoring_exact_iff_and_present_bound (target guess : List Char)
    (hT : target.length = 5) (hG : guess.length = 5) :
    (∀ i : Nat, i < 5 →
      ((format_guess_result target guess).getD i Marker.absent =
          Marker.exact ↔
        guess.getD i 'A' = target.getD i 'A')) ∧
    ∀ c : Char,
      countGuessPresent c guess (format_guess_result target guess) ≤
        countChar c target - exactConsumed c target guess := by
  have hlen : target.length = guess.length := by rw [hT, hG]
  exact ⟨fun i hi =>
      format_guess_result_exact_iff target guess hlen i (by omega),
    format_guess_result_present_bound target guess hlen⟩

/-- Witness for C1 at target `APPLE`, guess `ALLEY`, letter `L`. -/
theorem scoring_exact_iff_and_present_bound_witness :
    countGuessPresent 'L' ['A','L','L','E','Y']
        (format_guess_result ['A','P','P','L','E'] ['A','L','L','E','Y']) ≤
      countChar 'L' ['A','P','P','L','E'] -
        exactConsumed 'L' ['A','P','P','L','E'] ['A','L','L','E','Y'] :=
  (scoring_exact_iff_and_present_bound ['A','P','P','L','E']
    ['A','L','L','E','Y'] (by decide) (by decide)).2 'L'

/-- C2 as stated is false on the code: for target `APPLE` and guess
`ALLEY` the pattern is not
exact/absent/present-elsewhere/absent/absent. -/
theorem apple_alley_claimed_pattern_false :
    format_guess_result ['A','P','P','L','E'] ['A','L','L','E','Y'] ≠
      [Marker.exact, Marker.absent, Marker.present, Marker.absent,
        Marker.absent] := by
  decide

/-- C2 amended: for target `APPLE` and guess `ALLEY` the algorithm
yields position 0 exact (A), position 1 present-elsewhere (L), position
2 absent (second L, target's single L now consumed), position 3
present-elsewhere (E), position 4 absent (Y not in target). -/
theorem apple_alley_pattern :
    format_guess_result ['A','P','P','L','E'] ['A','L','L','E','Y'] =
      [Marker.exact, Marker.present, Marker.absent, Marker.present,
        Marker.absent] := by
  decide

theorem pass1_self : ∀ t : List Char,
    pass1 t t = (List.replicate t.length none, List.replicate t.length none)
  | [] => rfl
  | t :: ts => by simp [pass1, pass1_self ts, List.replicate]

theorem pass2_replicate_none : ∀ (n : Nat) (pool : List (Option Char)),
    pass2 (List.replicate n none) pool = List.replicate n Marker.exact
  | 0, _ => rfl
  | n + 1, pool => by
    simp [List.replicate, pass2, pass2_replicate_none n pool]

theorem format_guess_result_self (t : List Char) :
    format_guess_result t t = List.replicate t.length Marker.exact := by
  rw [format_guess_result, pass1_self, pass2_replicate_none]

/-- C10: for 5-character target and guess, the pattern has exactly 5
markers, and all 5 are exact iff the guess equals the target — so the
win condition (`text == game["word"]`) coincides with an all-green
pattern. -/
theorem pattern_length_and_all_exact_iff_eq (target guess : List Char)
    (hT : target.length = 5) (hG : guess.length = 5) :
    (format_guess_result target guess).length = 5 ∧
    (format_guess_result target guess = List.replicate 5 Marker.exact ↔
      guess = target) := by
  have hlen : target.length = guess.length := by rw [hT, hG]
  refine ⟨by rw [format_guess_result_length target guess hlen, hG], ?_, ?_⟩
  · intro hall
    apply List.ext_getElem (by rw [hG, hT])
    intro i h₁ h₂
    have hi5 : i < 5 := by rw [hG] at h₁; exact h₁
    have hiff := format_guess_result_exact_iff target guess hlen i h₁
    rw [hall] at hiff
    have hrep : (List.replicate 5 Marker.exact).getD i Marker.absent =
        Marker.exact := by
      rw [List.getD_eq_getElem _ _ (by simpa using hi5), List.getElem_replicate]
    have hgd := hiff.mp hrep
    rwa [List.getD_eq_getElem _ _ h₁, List.getD_eq_getElem _ _ h₂] at hgd
  · intro hgt
    subst hgt
    rw [format_guess_result_self, hT]

/-- Witness for C10 at target `APPLE`, guess `APPLE`. -/
theorem pattern_length_and_all_exact_iff_eq_witness :
    (format_guess_result ['A','P','P','L','E'] ['A','P','P','L','E']).length
        = 5 ∧
    (format_guess_result ['A','P','P','L','E'] ['A','P','P','L','E'] =
        List.replicate 5 Marker.exact ↔
      (['A','P','P','L','E'] : List Char) = ['A','P','P','L','E']) :=
  pattern_length_and_all_exact_iff_eq ['A','P','P','L','E']
    ['A','P','P','L','E'] (by decide) (by decide)

/-- A row of the `scores` table (src/main.py lines 64-73): user id,
display name, points, chat id, and a timestamp (modelled as a `Nat`,
abstract instants). -/
structure ScoreRecord where
  user_id : Int
  user_name : String
  points : Int
  chat_id : Int
  recorded_at : Nat
deriving DecidableEq, Repr

/-- A game session, the per-chat dict value built by `game_command`
(src/main.py lines 311-317).  `guessed_words` is the Python set,
modelled as a duplicate-free list (elements are only added after a
membership check). -/
structure GameSession where
  word : List Char
  attempts : Nat
  active : Bool
  history : List (List Char × List Marker)
  guessed_words : List (List Char)
deriving DecidableEq, Repr

/-- First-match lookup in the `user_games` dict (modelled as an
association list keyed by chat id). -/
def gamesLookup (l : List (Int × GameSession)) (c : Int) : Option GameSession :=
  match l with
  | [] => none
  | (k, v) :: rest => if k = c then some v else gamesLookup rest c

/-- `del user_games[chat_id]` (src/main.py lines 333, 568). -/
def gamesErase (l : List (Int × GameSession)) (c : Int) :
    List (Int × GameSession) :=
  l.filter (fun p => !(p.1 == c))

/-- `user_games[chat_id] = game` — dict assignment. -/
def gamesSet (l : List (Int × GameSession)) (c : Int) (g : GameSession) :
    List (Int × GameSession) :=
  (c, g) :: gamesErase l c

/-- The bot's mutable state: the in-memory session dict plus the
persistent `scores` table.  `dbOk` models whether the database
connection succeeds (src/main.py line 92: `if not conn: return`);
`now` is the insertion timestamp the database would assign. -/
structure BotState where
  user_games : List (Int × GameSession)
  scores : List ScoreRecord
  dbOk : Bool
  now : Nat
deriving DecidableEq, Repr

/-- `db_add_score` (src/main.py lines 89-104): one `INSERT INTO scores`
row when the connection is up, no effect otherwise. -/
def db_add_score (st : BotState) (user_id : Int) (name : String)
    (points : Int) (chat_id : Int) : BotState :=
  if st.dbOk then
    { st with scores :=
        st.scores ++ [⟨user_id, name, points, chat_id, st.now⟩] }
  else st

/-- `chat_id in user_games and user_games[chat_id]["active"]`
(src/main.py lines 305, 331, 522). -/
def isActiveGame (st : BotState) (chat_id : Int) : Bool :=
  match gamesLookup st.user_games chat_id with
  | some g => g.active
  | none => false

inductive GameReply where
  | alreadyActive
  | started
deriving DecidableEq, Repr

inductive StopReply where
  | stopped (word : List Char)
  | noActive
deriving DecidableEq, Repr

inductive Reply where
  | noop
  | duplicateGuess
  | win
  | progress
  | formatError
deriving DecidableEq, Repr

/-- A fresh session as built by `game_command` (src/main.py lines
311-317). -/
def newSession (word : List Char) : GameSession :=
  { word := word, attempts := 0, active := true, history := [],
    guessed_words := [] }

/-- `game_command` (src/main.py lines 302-327).  The randomly fetched
target word is a parameter. -/
def game_command (st : BotState) (chat_id : Int) (word : List Char) :
    BotState × GameReply :=
  if isActiveGame st chat_id then (st, GameReply.alreadyActive)
  else
    ({ st with user_games := gamesSet st.user_games chat_id (newSession word) },
      GameReply.started)

/-- `stop_command` (src/main.py lines 329-336). -/
def stop_command (st : BotState) (chat_id : Int) : BotState × StopReply :=
  match gamesLookup st.user_games chat_id with
  | some g =>
    if g.active then
      ({ st with user_games := gamesErase st.user_games chat_id },
        StopReply.stopped g.word)
    else (st, StopReply.noActive)
  | none => (st, StopReply.noActive)

/-- `process_message` (src/main.py lines 512-602), game branch.  The
inbound text is normalized to uppercase (`.strip().upper()`; the input
is taken post-strip).  Display-only reads (`db_get_leaderboard` calls
for the score shown in the reply) have no state effect and are
omitted. -/
def process_message (st : BotState) (chat_id user_id : Int)
    (first_name : String) (raw : List Char) : BotState × Reply :=
  let text := raw.map Char.toUpper
  match gamesLookup st.user_games chat_id with
  | none => (st, Reply.noop)
  | some game =>
    if game.active then
      if text.length = 5 ∧ text.all Char.isAlpha = true then
        if text ∈ game.guessed_words then (st, Reply.duplicateGuess)
        else
          let game1 : GameSession :=
            { game with
              guessed_words := text :: game.guessed_words,
              attempts := game.attempts + 1,
              history :=
                game.history ++ [(text, format_guess_result game.word text)] }
          if text = game.word then
            let st1 := db_add_score st user_id first_name 5 chat_id
            ({ st1 with user_games := gamesErase st1.user_games chat_id },
              Reply.win)
          else
            ({ st with user_games := gamesSet st.user_games chat_id game1 },
              Reply.progress)
      else (st, Reply.formatError)
    else (st, Reply.noop)

theorem gamesLookup_erase_self (l : List (Int × GameSession)) (c : Int) :
    gamesLookup (gamesErase l c) c = none := by
  induction l with
  | nil => rfl
  | cons p rest ih =>
    by_cases h : p.1 = c
    · simpa [gamesErase, h] using ih
    · simpa [gamesErase, gamesLookup, h] using ih

/-- C6: `game_command` on a chat with an active session replies
`alreadyActive` and returns the state unchanged, so the existing
session is unaltered in every field. -/
theorem start_already_active (st : BotState) (chat_id : Int)
    (word : List Char) (g : GameSession)
    (hlook : gamesLookup st.user_games chat_id = some g)
    (hact : g.active = true) :
    game_command st chat_id word = (st, GameReply.alreadyActive) ∧
    gamesLookup (game_command st chat_id word).1.user_games chat_id =
      some g := by
  have hA : isActiveGame st chat_id = true := by
    simp [isActiveGame, hlook, hact]
  constructor
  · simp [game_command, hA]
  · simp [game_command, hA, hlook]

/-- C7: with an active session, a text that does not normalize to
exactly 5 alphabetic characters replies with a format error and leaves
the whole state unchanged. -/
theorem guess_format_error (st : BotState) (chat_id user_id : Int)
    (first_name : String) (raw : List Char) (g : GameSession)
    (hlook : gamesLookup st.user_games chat_id = some g)
    (hact : g.active = true)
    (hbad : ¬((raw.map Char.toUpper).length = 5 ∧
      (raw.map Char.toUpper).all Char.isAlpha = true)) :
    process_message st chat_id user_id first_name raw =
      (st, Reply.formatError) := by
  simp only [process_message, hlook, hact, if_true]
  rw [if_neg hbad]

/-- C5: with an active session, a normalized 5-letter guess already in
`guessed_words` replies with a duplicate-guess error and leaves the
whole state unchanged (attempts, history, guessed words, scores). -/
theorem duplicate_guess_no_mutation (st : BotState) (chat_id user_id : Int)
    (first_name : String) (raw : List Char) (g : GameSession)
    (hlook : gamesLookup st.user_games chat_id = some g)
    (hact : g.active = true)
    (hlen : (raw.map Char.toUpper).length = 5)
    (halpha : (raw.map Char.toUpper).all Char.isAlpha = true)
    (hdup : raw.map Char.toUpper ∈ g.guessed_words) :
    process_message st chat_id user_id first_name raw =
      (st, Reply.duplicateGuess) := by
  simp [process_message, hlook, hact, hlen, halpha, hdup]

/-- C4: with an active session whose (5-letter, alphabetic, not yet
guessed) target equals the normalized guess and a live database
connection, `process_message` replies with the win message, appends
exactly one 5-point score row for this user and chat, removes the
session, and a subsequent `stop_command` on the chat reports no active
game and changes nothing. -/
theorem win_path (st : BotState) (chat_id user_id : Int)
    (first_name : String) (raw : List Char) (g : GameSession)
    (hlook : gamesLookup st.user_games chat_id = some g)
    (hact : g.active = true)
    (hword : raw.map Char.toUpper = g.word)
    (hlen : g.word.length = 5)
    (halpha : g.word.all Char.isAlpha = true)
    (hnew : g.word ∉ g.guessed_words)
    (hdb : st.dbOk = true) :
    (process_message st chat_id user_id first_name raw).2 = Reply.win ∧
    (process_message st chat_id user_id first_name raw).1.scores =
      st.scores ++ [⟨user_id, first_name, 5, chat_id, st.now⟩] ∧
    gamesLookup
      (process_message st chat_id user_id first_name raw).1.user_games
      chat_id = none ∧
    stop_command (process_message st chat_id user_id first_name raw).1
      chat_id =
      ((process_message st chat_id user_id first_name raw).1,
        StopReply.noActive) := by
  have hres : process_message st chat_id user_id first_name raw =
      ({ st with
          scores := st.scores ++ [⟨user_id, first_name, 5, chat_id, st.now⟩],
          user_games := gamesErase st.user_games chat_id }, Reply.win) := by
    simp [process_message, hlook, hact, hword, hlen, halpha, hnew,
      db_add_score, hdb]
  rw [hres]
  refine ⟨rfl, rfl, gamesLookup_erase_self st.user_games chat_id, ?_⟩
  simp [stop_command, gamesLookup_erase_self]

/-- A fresh example session and state used by the witnesses. -/
def exSession : GameSession := newSession (['A','P','P','L','E'] : List Char)

def exState : BotState :=
  { user_games := [(7, exSession)], scores := [], dbOk := true, now := 0 }

/-- An example mid-game state: one prior guess recorded. -/
def exSession2 : GameSession :=
  { word := ['A','P','P','L','E'], attempts := 1, active := true,
    history := [(['B','R','A','I','N'],
      format_guess_result ['A','P','P','L','E'] ['B','R','A','I','N'])],
    guessed_words := [['B','R','A','I','N']] }

def exState2 : BotState :=
  { user_games := [(7, exSession2)], scores := [], dbOk := true, now := 3 }

/-- Witness for C6 on the example state. -/
theorem start_already_active_witness :
    game_command exState 7 ['B','R','A','I','N'] =
      (exState, GameReply.alreadyActive) ∧
    gamesLookup (game_command exState 7 ['B','R','A','I','N']).1.user_games
      7 = some exSession :=
  start_already_active exState 7 ['B','R','A','I','N'] exSession
    (by decide) (by decide)

/-- Witness for C7 on the example state: a 2-character text. -/
theorem guess_format_error_witness :
    process_message exState 7 42 "Ada" ['H','I'] =
      (exState, Reply.formatError) :=
  guess_format_error exState 7 42 "Ada" ['H','I'] exSession
    (by decide) (by decide) (by decide)

/-- Witness for C5 on the mid-game example state: repeating `BRAIN`
(submitted in lowercase, normalized to uppercase). -/
theorem duplicate_guess_no_mutation_witness :
    process_message exState2 7 42 "Ada" ['b','r','a','i','n'] =
      (exState2, Reply.duplicateGuess) :=
  duplicate_guess_no_mutation exState2 7 42 "Ada" ['b','r','a','i','n']
    exSession2 (by decide) (by decide) (by decide) (by decide) (by decide)

/-- Witness for C4 on the mid-game example state: guessing the target
`apple` (lowercase, normalized). -/
theorem win_path_witness :
    (process_message exState2 7 42 "Ada" ['a','p','p','l','e']).2 =
      Reply.win ∧
    (process_message exState2 7 42 "Ada" ['a','p','p','l','e']).1.scores =
      exState2.scores ++ [⟨42, "Ada", 5, 7, exState2.now⟩] ∧
    gamesLookup
      (process_message exState2 7 42 "Ada" ['a','p','p','l','e']).1.user_games
      7 = none ∧
    stop_command
      (process_message exState2 7 42 "Ada" ['a','p','p','l','e']).1 7 =
      ((process_message exState2 7 42 "Ada" ['a','p','p','l','e']).1,
        StopReply.noActive) :=
  win_path exState2 7 42 "Ada" ['a','p','p','l','e'] exSession2
    (by decide) (by decide) (by decide) (by decide) (by decide) (by decide)
    (by decide)

/-- Time condition of `db_get_leaderboard` (src/main.py lines 129-133):
`today` keeps rows from the start of the current day, `week` keeps rows
from the last 7 days, any other value applies no condition.  `dayStart`
and `weekStart` are the lower bounds the database would compute for
`CURRENT_DATE` and `CURRENT_DATE - INTERVAL '7 days'`. -/
def matchesTime (time_filter : String) (dayStart weekStart : Nat)
    (r : ScoreRecord) : Bool :=
  if time_filter = "today" then decide (dayStart ≤ r.recorded_at)
  else if time_filter = "week" then decide (weekStart ≤ r.recorded_at)
  else true

/-- Scope condition (src/main.py lines 135-137): `local` keeps rows of
the given chat, any other value applies no condition. -/
def matchesScope (scope : String) (chat_id : Int) (r : ScoreRecord) : Bool :=
  if scope = "local" then r.chat_id == chat_id else true

/-- `SUM(points)` over the rows of one `(user_id, user_name)` group. -/
def sumPoints (rows : List ScoreRecord) (uid : Int) (name : String) : Int :=
  ((rows.filter (fun r => r.user_id == uid && r.user_name == name)).map
    (fun r => r.points)).sum

/-- `ORDER BY total_points DESC` as a relation on grouped rows. -/
def lbGE (a b : Int × String × Int) : Prop := b.2.2 ≤ a.2.2

instance : DecidableRel lbGE := fun a b =>
  inferInstanceAs (Decidable (b.2.2 ≤ a.2.2))

instance : IsTotal (Int × String × Int) lbGE :=
  ⟨fun a b => le_total b.2.2 a.2.2⟩

instance : IsTrans (Int × String × Int) lbGE :=
  ⟨fun _ _ _ hab hbc => le_trans hbc hab⟩

/-- The `WHERE` clause (src/main.py line 147): scope condition, then
time condition. -/
def lbFiltered (db : List ScoreRecord) (time_filter scope : String)
    (chat_id : Int) (dayStart weekStart : Nat) : List ScoreRecord :=
  db.filter (fun r =>
    matchesScope scope chat_id r &&
      matchesTime time_filter dayStart weekStart r)

/-- The distinct `GROUP BY user_id, user_name` keys of a row set (group
enumeration order before sorting is immaterial; the distinct keys are
enumerated by `dedup`). -/
def lbKeys (rows : List ScoreRecord) : List (Int × String) :=
  (rows.map (fun r => (r.user_id, r.user_name))).dedup

/-- The grouped rows `(user_id, user_name, SUM(points))`. -/
def lbGrouped (rows : List ScoreRecord) : List (Int × String × Int) :=
  (lbKeys rows).map (fun k => (k.1, k.2, sumPoints rows k.1 k.2))

/-- The leaderboard SQL query (src/main.py lines 139-153) under standard
relational semantics: filter by scope and time, group by
`(user_id, user_name)`, sum points per group, order by total descending,
`LIMIT 10`. -/
def leaderboardRows (db : List ScoreRecord) (time_filter scope : String)
    (chat_id : Int) (dayStart weekStart : Nat) :
    List (Int × String × Int) :=
  (List.insertionSort lbGE
    (lbGrouped (lbFiltered db time_filter scope chat_id dayStart
      weekStart))).take 10

/-- Outcome of the database interaction in `db_get_leaderboard`:
no connection (src/main.py line 127), a failing query (lines 166-167),
or a successful query over table contents `db`. -/
inductive DBConn where
  | noConn
  | queryError
  | ok (db : List ScoreRecord)

/-- `db_get_leaderboard` (src/main.py lines 124-171): on failure both
results stay empty; on success the fetched rows are split into
`sorted_scores` (user id, total) and the `user_names` mapping. -/
def db_get_leaderboard (conn : DBConn) (time_filter scope : String)
    (chat_id : Int) (dayStart weekStart : Nat) :
    List (Int × Int) × List (Int × String) :=
  match conn with
  | DBConn.noConn => ([], [])
  | DBConn.queryError => ([], [])
  | DBConn.ok db =>
    ((leaderboardRows db time_filter scope chat_id dayStart weekStart).map
        (fun r => (r.1, r.2.2)),
      (leaderboardRows db time_filter scope chat_id dayStart weekStart).map
        (fun r => (r.1, r.2.1)))

/-- Projecting a grouped row back to its key recovers the key list. -/
theorem lbGrouped_map_key (rows : List ScoreRecord) :
    (lbGrouped rows).map (fun r => (r.1, r.2.1)) = lbKeys rows := by
  rw [lbGrouped, List.map_map]
  exact List.map_id _

theorem lbGrouped_total (rows : List ScoreRecord) :
    ∀ r ∈ lbGrouped rows, r.2.2 = sumPoints rows r.1 r.2.1 := by
  intro r hr
  rcases List.mem_map.1 hr with ⟨k, _, hk⟩
  subst hk
  rfl

/-- C3 amended: the query groups by the pair (user id, display name):
each such pair appears at most once, each group's total is the sum of
the matching rows with that user id AND that name, the sequence is
sorted descending by total, and has at most 10 entries; the returned
`sorted_scores` projects these rows to (user id, total). -/
theorem leaderboard_grouped_by_user_and_name (db : List ScoreRecord)
    (time_filter scope : String) (chat_id : Int) (dayStart weekStart : Nat) :
    ((leaderboardRows db time_filter scope chat_id dayStart weekStart).map
        (fun r => (r.1, r.2.1))).Nodup ∧
    (∀ r ∈ leaderboardRows db time_filter scope chat_id dayStart weekStart,
      r.2.2 = sumPoints
        (lbFiltered db time_filter scope chat_id dayStart weekStart)
        r.1 r.2.1) ∧
    List.Sorted lbGE
      (leaderboardRows db time_filter scope chat_id dayStart weekStart) ∧
    (leaderboardRows db time_filter scope chat_id dayStart
      weekStart).length ≤ 10 ∧
    (db_get_leaderboard (DBConn.ok db) time_filter scope chat_id dayStart
        weekStart).1 =
      (leaderboardRows db time_filter scope chat_id dayStart weekStart).map
        (fun r => (r.1, r.2.2)) := by
  have hperm := List.perm_insertionSort lbGE
    (lbGrouped (lbFiltered db time_filter scope chat_id dayStart weekStart))
  simp only [leaderboardRows]
  refine ⟨?_, ?_, ?_, ?_, rfl⟩
  · have hnd :
        ((List.insertionSort lbGE (lbGrouped (lbFiltered db time_filter
          scope chat_id dayStart weekStart))).map
            (fun r : Int × String × Int => (r.1, r.2.1))).Nodup := by
      refine ((hperm.map (fun r : Int × String × Int =>
        (r.1, r.2.1))).nodup_iff).2 ?_
      rw [lbGrouped_map_key]
      exact List.nodup_dedup _
    exact List.Nodup.sublist
      ((List.take_sublist 10 _).map
        (fun r : Int × String × Int => (r.1, r.2.1))) hnd
  · intro r hr
    exact lbGrouped_total _ r ((hperm.mem_iff).1 (List.mem_of_mem_take hr))
  · exact List.Pairwise.sublist (List.take_sublist 10 _)
      (List.sorted_insertionSort lbGE _)
  · simp

/-- C3 fails on the code: the SQL groups by `(user_id, user_name)`, not
by user id alone, so a user recorded under two display names appears
twice in the result (`sorted_scores` of this two-row table maps to user
ids `[1, 1]`). -/
theorem leaderboard_userid_repeated :
    ¬ (((db_get_leaderboard
        (DBConn.ok
          [⟨1, "A", 5, 0, 0⟩, ⟨1, "B", 5, 0, 0⟩])
        "all" "global" 0 0 0).1.map Prod.fst).Nodup) := by
  decide

/-- Witness for C3 (amended) on a two-row, one-group table: the single
grouped row (user 1, name `A`) carries the summed total 5. -/
theorem leaderboard_grouped_by_user_and_name_witness :
    ((⟨1, "A", 5⟩ : Int × String × Int) ∈
      leaderboardRows [⟨1, "A", 2, 0, 0⟩, ⟨1, "A", 3, 0, 0⟩]
        "all" "global" 0 0 0) ∧
    (5 : Int) = sumPoints
      (lbFiltered [⟨1, "A", 2, 0, 0⟩, ⟨1, "A", 3, 0, 0⟩]
        "all" "global" 0 0 0) 1 "A" :=
  ⟨by decide,
    (leaderboard_grouped_by_user_and_name
      [⟨1, "A", 2, 0, 0⟩, ⟨1, "A", 3, 0, 0⟩] "all" "global" 0 0 0).2.1
      ⟨1, "A", 5⟩ (by decide)⟩

/-- C8: on any persistence failure — no connection or a failing query —
`db_get_leaderboard` returns an empty score list and an empty name
mapping, for every filter, scope and chat id. -/
theorem leaderboard_empty_on_failure (conn : DBConn)
    (time_filter scope : String) (chat_id : Int) (dayStart weekStart : Nat)
    (hfail : conn = DBConn.noConn ∨ conn = DBConn.queryError) :
    db_get_leaderboard conn time_filter scope chat_id dayStart weekStart =
      ([], []) := by
  rcases hfail with h | h <;> subst h <;> rfl

/-- Witness for C8 at a failed connection. -/
theorem leaderboard_empty_on_failure_witness :
    db_get_leaderboard DBConn.noConn "today" "local" 7 0 0 = ([], []) :=
  leaderboard_empty_on_failure DBConn.noConn "today" "local" 7 0 0
    (Or.inl rfl)

/-- The fan-out loop of `broadcast_command` (src/main.py lines 439-485):
the issuing chat is skipped with `continue`; every other registered chat
gets one independent send attempt whose failure is caught, logged, and
does not stop the loop, and `success_count` is incremented only when the
attempt succeeds.  `sendOk c` tells whether the send to chat `c`
succeeds. -/
def broadcastLoop (chat_ids : List Int) (current_chat : Int)
    (sendOk : Int → Bool) : Nat :=
  match chat_ids with
  | [] => 0
  | c :: rest =>
    (if c = current_chat then 0 else if sendOk c then 1 else 0) +
      broadcastLoop rest current_chat sendOk

/-- The `success_count/total_chats` pair reported back to the invoker
(src/main.py lines 487-489); `total_chats = len(chat_ids)` counts every
registered chat. -/
def broadcast_report (chat_ids : List Int) (current_chat : Int)
    (sendOk : Int → Bool) : Nat × Nat :=
  (broadcastLoop chat_ids current_chat sendOk, chat_ids.length)

theorem broadcastLoop_eq_filter_length
    (current_chat : Int) (sendOk : Int → Bool) :
    ∀ chat_ids : List Int,
      broadcastLoop chat_ids current_chat sendOk =
        (chat_ids.filter
          (fun c => decide (c ≠ current_chat) && sendOk c)).length
  | [] => rfl
  | c :: rest => by
    have ih := broadcastLoop_eq_filter_length current_chat sendOk rest
    by_cases hc : c = current_chat
    · simp [broadcastLoop, List.filter, hc, ih]
    · by_cases hs : sendOk c = true <;>
        simp [broadcastLoop, List.filter, hc, hs, ih] <;> omega

theorem length_filter_add_length_filter_not (p : Int → Bool) :
    ∀ l : List Int,
      (l.filter p).length + (l.filter (fun c => !(p c))).length = l.length
  | [] => rfl
  | c :: rest => by
    have ih := length_filter_add_length_filter_not p rest
    by_cases h : p c = true <;> simp [List.filter, h] <;> omega

/-- C9: the broadcast skips the chat the command came from, attempts
every remaining send independently (the success count is exactly the
number of chats, other than the current one, whose own send succeeds —
one chat's failure cannot affect another's), and reports successes out
of the total number of registered chats; with 5 registered chats, the
issuing chat not among them, and exactly one failing send, it reports
4 out of 5. -/
theorem broadcast_counts (chat_ids : List Int) (current_chat : Int)
    (sendOk : Int → Bool) :
    broadcast_report chat_ids current_chat sendOk =
      ((chat_ids.filter
        (fun c => decide (c ≠ current_chat) && sendOk c)).length,
        chat_ids.length) ∧
    (chat_ids.length = 5 → current_chat ∉ chat_ids →
      (chat_ids.filter (fun c => !(sendOk c))).length = 1 →
      broadcast_report chat_ids current_chat sendOk = (4, 5)) := by
  have hloop := broadcastLoop_eq_filter_length current_chat sendOk chat_ids
  constructor
  · rw [broadcast_report, hloop]
  · intro hlen hmem hfail
    have hfilter : chat_ids.filter
        (fun c => decide (c ≠ current_chat) && sendOk c) =
        chat_ids.filter sendOk := by
      apply List.filter_congr
      intro c hc
      have : c ≠ current_chat := fun h => hmem (h ▸ hc)
      simp [this]
    have hsum := length_filter_add_length_filter_not sendOk chat_ids
    rw [broadcast_report, hloop, hfilter, Prod.mk.injEq]
    omega

/-- Witness for C9: chats 1-5 registered, command issued from chat 0,
the send to chat 3 fails. -/
theorem broadcast_counts_witness :
    broadcast_report [1, 2, 3, 4, 5] 0 (fun c => !(c == 3)) = (4, 5) :=
  (broadcast_counts [1, 2, 3, 4, 5] 0 (fun c => !(c == 3))).2
    (by decide) (by decide) (by decide)
